import Mathlib

/-!
fortum-fetch: browser-driven authentication, token polling, usage timestamps

A shallow embedding of `authentication.go`, and of the parts of `usage.go` and
`main.go` that the verified properties touch.

Modelling conventions.

* A Go `error` value is an element of `Error`; a nil error is `none`.
* A Go `*string` is an `Option String`; nil is `none`.
* The browser driver (chromedp) is outside the program.  Every call
  `chromedp.Run(ctx, action)` is answered by the `Context` the call is made
  on: the answer is the returned error and, for the session-storage read,
  what the call left in the `accessToken` variable.  Time-outs are answers
  with an error; real time is not modelled.
* Every function that talks to the driver returns, next to its Go result,
  the list of `Event`s it caused, in program order.  Deferred calls are
  made when the function leaves, last deferred first.
* A call of a cancel function may not return: the cancel function of
  `chromedp.NewContext` waits for the browser of the context to stop, and
  when no browser process was ever started only its first call returns.  A
  run in which a call does not return ends as `Run.blocked`.
-/

namespace FortumFetch

/-! ## Errors -/

/-- Go error values.  `new` is `errors.New`, `join` is `errors.Join` applied
to two non-nil errors (the only way the program calls it), `status` is a
`*RequestStatusError`. -/
inductive Error where
  | new (msg : String)
  | join (first second : Error)
  | status (msg : String) (code : Int)
  deriving DecidableEq, Repr

namespace Error

/-- The `Error()` method: the text of an error.  A joined error prints its
parts on separate lines; a `RequestStatusError` prints `msg (status code)`. -/
def text : Error → String
  | new msg => msg
  | join a b => a.text ++ "\n" ++ b.text
  | status msg code => msg ++ " (status " ++ toString code ++ ")"

/-- The error tree of `e` contains `target`: `e` is `target`, or `e` is a join
one of whose parts contains it (what `errors.Is` walks through). -/
def wraps : Error → Error → Bool
  | new msg, target => decide (new msg = target)
  | status msg code, target => decide (status msg code = target)
  | join a b, target => decide (join a b = target) || a.wraps target || b.wraps target

/-- The first `*RequestStatusError` in the tree of an error, depth first, as
`errors.As(err, &statusError)` finds it: its message and status. -/
def asStatus : Error → Option (String × Int)
  | new _ => none
  | status msg code => some (msg, code)
  | join a b =>
    match a.asStatus with
    | some s => some s
    | none => b.asStatus

end Error

/-! ## authentication.go -/

/-- Path to login. -/
def loginPath : String := "/login?lang=en"

/-- Form element: the user name input. -/
def userNameInput : String := "//input[@id=\"ttqusername\"]"

/-- Form element: the password input. -/
def passwordInput : String := "//input[@id=\"user-password\"]"

/-- Form element: the submit control. -/
def submitButton : String := "a.btn--login"

/-- The `Auth` struct. -/
structure Auth where
  User : String
  Password : String
  LoginUrl : String
  Token : String
  deriving DecidableEq, Repr

/-- A Go pair `(*T, error)`. -/
structure Ret (α : Type) where
  val : Option α
  err : Option Error
  deriving DecidableEq, Repr

/-- `NewAuth(user, password, baseUrl)`: each argument is a `*string`, `none`
being nil.  The checks run in the order user, password, url. -/
def NewAuth (user password baseUrl : Option String) : Ret Auth :=
  let a : Auth := ⟨"", "", "", ""⟩
  if user = none ∨ user = some "" then
    ⟨none, some (Error.new "user cannot be empty")⟩
  else if password = none ∨ password = some "" then
    ⟨none, some (Error.new "password cannot be empty")⟩
  else if baseUrl = none ∨ baseUrl = some "" then
    ⟨none, some (Error.new "url cannot be empty")⟩
  else
    let a := { a with User := user.getD "" }
    let a := { a with Password := password.getD "" }
    let a := { a with LoginUrl := baseUrl.getD "" ++ loginPath }
    ⟨some a, none⟩

/-- The chromedp actions the program builds. -/
inductive Action where
  | Navigate (url : String)
  | WaitReady (sel : String)
  | Sleep (milliseconds : Nat)
  | SendKeys (sel : String) (text : String)
  | Click (sel : String)
  | WaitNotPresent (sel : String)
  | Evaluate (script : String)
  deriving DecidableEq, Repr

/-- The argument of one `chromedp.Run(ctx, ...)` call: a task list, wrapped by
`runWithTimeOut` in a time-out of `timeoutSeconds` seconds when that is
`some`. -/
structure RunCall where
  timeoutSeconds : Option Nat
  tasks : List Action
  deriving DecidableEq, Repr

/-- `runWithTimeOut(&ctx, timeout, tasks)`. -/
def runWithTimeOut (timeout : Nat) (tasks : List Action) : RunCall :=
  ⟨some timeout, tasks⟩

/-- What a `chromedp.Run` call leaves behind: the error it returns, the
content of the variable an `Evaluate` task of the call writes to (`none` is a
nil pointer: the storage entry is null, or nothing was stored), and whether a
browser process has been started for the context when the call ends.  The
first call on a context starts the browser; when the start itself fails (the
executable is not found, say) the call returns an error with no browser
started. -/
structure RunResult where
  err : Option Error
  value : Option String
  browser : Bool
  deriving DecidableEq, Repr

/-- A chromedp context, seen from the program: the answer of the browser to
the `i`-th `chromedp.Run` call made on it (counted from 0). -/
abbrev Context := Nat → RunCall → RunResult

/-- The same context after `k` calls have been made on it. -/
def Context.after (ctx : Context) (k : Nat) : Context :=
  fun i call => ctx (k + i) call

/-- The two cancel functions `getAccessToken` holds: the one returned by
`chromedp.NewExecAllocator` and the one returned by `chromedp.NewContext`. -/
inductive CancelFunc where
  | allocator
  | context
  deriving DecidableEq, Repr

/-- Calls that leave the program. -/
inductive Event where
  | newExecAllocator (headless : Bool)
  | newContext
  | run (call : RunCall)
  | sleep (milliseconds : Nat)
  | cancel (f : CancelFunc)
  deriving DecidableEq, Repr

/-- The task list of one token read: wait for the body, read the entry. -/
def readCall : RunCall :=
  ⟨none, [Action.WaitReady "body", Action.Evaluate "sessionStorage.getItem('accessToken')"]⟩

/-- The statements after the loop of `readAccessToken`. -/
def readFinish (err : Option Error) (trace : List Event) : Ret String × List Event :=
  match err with
  | some e => (⟨none, some (Error.join (Error.new "failed to get accessToken") e)⟩, trace)
  | none => (⟨none, some (Error.new "accessToken not found")⟩, trace)

/-- The loop `for attempt < 100 { ... }` of `readAccessToken`, from the loop
head with the given values of `attempt` and `err` (`accessToken` is nil at
every loop head: the body returns when it is not).  The first argument bounds
the number of iterations; `readLoop_fuel` shows that `100 - attempt` is
enough, so that the bound is never what ends the loop. -/
def readLoop (ctx : Context) : Nat → Nat → Option Error → List Event → Ret String × List Event
  | 0, _, err, trace => readFinish err trace
  | fuel + 1, attempt, err, trace =>
    if attempt < 100 then
      let r := ctx (attempt - 1) readCall
      let err := r.err
      let accessToken := r.value
      let trace := trace ++ [Event.run readCall]
      match accessToken with
      | some t => (⟨some t, none⟩, trace)
      | none => readLoop ctx fuel (attempt + 1) err (trace ++ [Event.sleep 100])
    else
      readFinish err trace

/-- `readAccessToken(ctx)`: `attempt := 1`, `err = nil`, then the loop. -/
def readAccessToken (ctx : Context) : Ret String × List Event :=
  readLoop ctx 99 1 none []

/-- Phase 1: open the login page. -/
def phase1 (auth : Auth) : RunCall :=
  runWithTimeOut 10 [Action.Navigate auth.LoginUrl, Action.WaitReady "body"]

/-- Phase 2: fill the login form. -/
def phase2 (auth : Auth) : RunCall :=
  runWithTimeOut 10
    [Action.Sleep 1000, Action.SendKeys userNameInput auth.User,
     Action.SendKeys passwordInput auth.Password]

/-- Phase 3: submit the login form. -/
def phase3 : RunCall :=
  runWithTimeOut 10
    [Action.WaitReady submitButton, Action.Click submitButton,
     Action.WaitNotPresent userNameInput]

/-- How a call ends: it returns, it ends the process through
`log.Fatal`/`log.Fatalf` with a message, it panics on a nil pointer
dereference, or it waits for ever in a call that never returns. -/
inductive Run (α : Type) where
  | returned (a : α)
  | fatal (msg : String)
  | nilDereference
  | blocked
  deriving DecidableEq, Repr

/-- Calling a cancel function after the events of `trace`, `browser` telling
whether a browser process was started for the context: the trace with the call
added, and whether the call returns.  The allocator's cancel function returns.
The cancel function of `chromedp.NewContext` waits for the browser of the
context to stop: when one was started every call returns; when none was, the
first call returns and a later call waits for ever. -/
def callCancel (browser : Bool) (f : CancelFunc) (trace : List Event) : List Event × Bool :=
  match f with
  | CancelFunc.allocator => (trace ++ [Event.cancel f], true)
  | CancelFunc.context =>
    (trace ++ [Event.cancel f],
      browser || !decide (Event.cancel CancelFunc.context ∈ trace))

/-- Leaving `getAccessToken` with the result values set: the given cancel
calls are made in order (on an error path the explicit `cancel()`, then the
deferred calls, last deferred first) and the result goes to the caller; a
call that does not return leaves the rest undone. -/
def leave (browser : Bool) :
    List CancelFunc → Ret String → List Event → Run (Ret String) × List Event
  | [], result, trace => (Run.returned result, trace)
  | f :: rest, result, trace =>
    match callCancel browser f trace with
    | (trace, true) => leave browser rest result trace
    | (trace, false) => (Run.blocked, trace)

/-- `getAccessToken(auth)`, with `cli.Headless` and the browser behind the
new context as parameters.  `cancel` is first the allocator's cancel function
and is deferred as such, then it is overwritten by the context's cancel
function, which is deferred too and also called on every error path.  A
browser process has been started when the first `chromedp.Run` call says so
or succeeds. -/
def getAccessToken (headless : Bool) (auth : Auth) (ctx : Context) :
    Run (Ret String) × List Event :=
  let trace := [Event.newExecAllocator headless]
  let cancel := CancelFunc.allocator
  let deferred := [cancel]
  let trace := trace ++ [Event.newContext]
  let cancel := CancelFunc.context
  let deferred := cancel :: deferred
  let trace := trace ++ [Event.run (phase1 auth)]
  let browser := (ctx 0 (phase1 auth)).browser || (ctx 0 (phase1 auth)).err.isNone
  match (ctx 0 (phase1 auth)).err with
  | some err => leave browser (cancel :: deferred) ⟨none, some err⟩ trace
  | none =>
    let trace := trace ++ [Event.run (phase2 auth)]
    match (ctx 1 (phase2 auth)).err with
    | some err => leave browser (cancel :: deferred) ⟨none, some err⟩ trace
    | none =>
      let trace := trace ++ [Event.run phase3]
      match (ctx 2 phase3).err with
      | some err =>
        leave browser (cancel :: deferred)
          ⟨none, some (Error.join (Error.new "login failed") err)⟩ trace
      | none =>
        let r := readAccessToken (ctx.after 3)
        let trace := trace ++ r.2
        match r.1.err with
        | some err => leave browser (cancel :: deferred) ⟨none, some err⟩ trace
        | none => leave browser deferred ⟨r.1.val, none⟩ trace

/-! ## main.go: the command layer -/

/-- The fields of the global `cli` the modelled functions read
(`AccessToken` is `cli.Usage.AccessToken`). -/
structure Cli where
  Debug : Bool
  Headless : Bool
  User : String
  Password : String
  Url : String
  AccessToken : String
  deriving DecidableEq, Repr

/-- `doAuthenticate()`: `NewAuth` on the addresses of three `cli` fields (never
nil), then `getAccessToken`, then `*token`. -/
def doAuthenticate (cli : Cli) (browser : Context) : Run String × List Event :=
  let r := NewAuth (some cli.User) (some cli.Password) (some cli.Url)
  match r.err with
  | some err => (Run.fatal ("invalid authentication configuration: " ++ err.text), [])
  | none =>
    match r.val with
    | none => (Run.nilDereference, [])
    | some auth =>
      let t := getAccessToken cli.Headless auth browser
      match t.1 with
      | Run.blocked => (Run.blocked, t.2)
      | Run.fatal msg => (Run.fatal msg, t.2)
      | Run.nilDereference => (Run.nilDereference, t.2)
      | Run.returned r =>
        match r.err with
        | some err => (Run.fatal err.text, t.2)
        | none =>
          match r.val with
          | none => (Run.nilDereference, t.2)
          | some token => (Run.returned token, t.2)

/-! ## usage.go: customer information -/

/-- Path of the customer information endpoint. -/
def customerInfoPath : String := "/api/customer/representations"

/-- The `CustomerInfo` struct (`Owner` flattened). -/
structure CustomerInfo where
  Error : Bool
  CustomerId : Nat
  FirstName : String
  LastName : String
  deriving DecidableEq, Repr

/-- An `*http.Response`, as far as `getCustomerInfo` looks at it: the status
code and what decoding the body as JSON into a `CustomerInfo` gives. -/
structure Response where
  StatusCode : Int
  body : Except Error CustomerInfo

/-- The pair `client.Do(req)` returns. -/
structure DoResult where
  res : Option Response
  err : Option Error

/-- The network and the library functions in front of it: the error of
`url.Parse` and of `http.NewRequest` for a URL (if any), and the answer of
`client.Do` inside the `i`-th call of `getCustomerInfo` (counted from 0) for a
URL and a bearer token. -/
structure Net where
  parseUrl : String → Option Error
  newRequest : String → Option Error
  roundTrip : Nat → String → String → DoResult

/-- `getCustomerInfo(client, baseUrl, accessToken)`, `call` being the number of
earlier calls.  When `client.Do` fails, the code reads `res.StatusCode`, which
panics when `res` is nil. -/
def getCustomerInfo (net : Net) (call : Nat) (baseUrl accessToken : String) :
    Run (Ret CustomerInfo) :=
  if baseUrl = "" then
    Run.returned ⟨none, some (Error.new "base URL cannot be empty")⟩
  else if accessToken = "" then
    Run.returned ⟨none, some (Error.status "accessToken cannot be empty" 401)⟩
  else
    let customerInfoUrl := baseUrl ++ customerInfoPath
    match net.parseUrl customerInfoUrl with
    | some err => Run.returned ⟨none, some (Error.new ("invalid url: " ++ err.text))⟩
    | none =>
      match net.newRequest customerInfoUrl with
      | some err => Run.returned ⟨none, some err⟩
      | none =>
        let d := net.roundTrip call customerInfoUrl accessToken
        match d.err with
        | some err =>
          match d.res with
          | none => Run.nilDereference
          | some res => Run.returned ⟨none, some (Error.status err.text res.StatusCode)⟩
        | none =>
          match d.res with
          | none => Run.nilDereference
          | some res =>
            if res.StatusCode ≠ 200 then
              Run.returned ⟨none, some (Error.status "invalid response status" res.StatusCode)⟩
            else
              match res.body with
              | Except.error err =>
                Run.returned ⟨none, some (Error.join
                  (Error.new "unable to get parse customer information response") err)⟩
              | Except.ok customerInfo =>
                if customerInfo.Error then
                  Run.returned ⟨none, some (Error.new "invalid customer info response")⟩
                else
                  Run.returned ⟨some customerInfo, none⟩

/-- The arguments `doUsage` passes to `getMeteringPoints`. -/
structure MeteringPointsCall where
  baseUrl : String
  accessToken : String
  customerId : Nat
  deriving DecidableEq, Repr

/-- Evaluating the call `getMeteringPoints(client, cli.Url,
cli.Usage.AccessToken, customerInfo.Owner.CustomerId)` in `doUsage`: the last
argument dereferences `customerInfo`. -/
def callGetMeteringPoints (cli : Cli) (customerInfo : Option CustomerInfo) :
    Run MeteringPointsCall :=
  match customerInfo with
  | none => Run.nilDereference
  | some info => Run.returned ⟨cli.Url, cli.AccessToken, info.CustomerId⟩

/-- `doUsage()` from its start to the call of `getMeteringPoints`: the result
is how the run ends before that call, or the call's arguments.  The `switch`
has a case for errors that are (or wrap) a `*RequestStatusError`, whose body
acts on status 401 only, and a `default` case that is fatal. -/
def doUsage (cli : Cli) (net : Net) (browser : Context) : Run MeteringPointsCall :=
  match getCustomerInfo net 0 cli.Url cli.AccessToken with
  | Run.fatal msg => Run.fatal msg
  | Run.nilDereference => Run.nilDereference
  | Run.blocked => Run.blocked
  | Run.returned r =>
    match r.err with
    | none => callGetMeteringPoints cli r.val
    | some err =>
      match err.asStatus with
      | some statusError =>
        if statusError.2 = 401 then
          match (doAuthenticate cli browser).1 with
          | Run.fatal msg => Run.fatal msg
          | Run.nilDereference => Run.nilDereference
          | Run.blocked => Run.blocked
          | Run.returned token =>
            let cli := { cli with AccessToken := token }
            match getCustomerInfo net 1 cli.Url cli.AccessToken with
            | Run.fatal msg => Run.fatal msg
            | Run.nilDereference => Run.nilDereference
            | Run.blocked => Run.blocked
            | Run.returned r =>
              match r.err with
              | some err => Run.fatal err.text
              | none => callGetMeteringPoints cli r.val
        else
          callGetMeteringPoints cli r.val
      | none => Run.fatal err.text

/-! ## usage.go: usage timestamps

`UsageTime` embeds a `time.Time`.  The functions of Go's `time` and `strings`
packages that `UnmarshalJSON` and `atLocation` call are written out here
after their documented behaviour: a time is an instant (seconds since the
Unix epoch; the layouts in use have no sub-second field on output) together
with the location it is shown in. -/

/-- A `*time.Location`: its name and the offset, in seconds east of UTC, it
has at each instant. -/
structure Location where
  name : String
  offset : Int → Int

/-- The location `time.UTC`. -/
def UTC : Location := ⟨"UTC", fun _ => 0⟩

/-- The location `time.FixedZone(name, offset)`. -/
def FixedZone (name : String) (offset : Int) : Location := ⟨name, fun _ => offset⟩

/-- A `time.Time`. -/
structure Time where
  unix : Int
  loc : Location

/-- Days from 1970-01-01 to the given proleptic Gregorian date. -/
def daysFromCivil (y m d : Int) : Int :=
  let y := if m ≤ 2 then y - 1 else y
  let era := y / 400
  let yoe := y - era * 400
  let mp := if m > 2 then m - 3 else m + 9
  let doy := (153 * mp + 2) / 5 + d - 1
  let doe := yoe * 365 + yoe / 4 - yoe / 100 + doy
  era * 146097 + doe - 719468

/-- The proleptic Gregorian date (year, month, day) a number of days after
1970-01-01. -/
def civilFromDays (z : Int) : Int × Int × Int :=
  let z := z + 719468
  let era := z / 146097
  let doe := z - era * 146097
  let yoe := (doe - doe / 1460 + doe / 36524 - doe / 146096) / 365
  let y := yoe + era * 400
  let doy := doe - (365 * yoe + yoe / 4 - yoe / 100)
  let mp := (5 * doy + 2) / 153
  let d := doy - (153 * mp + 2) / 5 + 1
  let m := if mp < 10 then mp + 3 else mp - 9
  (if m ≤ 2 then y + 1 else y, m, d)

/-- Is the year a leap year. -/
def isLeap (y : Nat) : Bool :=
  y % 4 = 0 && (y % 100 ≠ 0 || y % 400 = 0)

/-- Number of days of a month of a year. -/
def daysIn (m y : Nat) : Nat :=
  if m = 2 then (if isLeap y then 29 else 28)
  else if m = 4 ∨ m = 6 ∨ m = 9 ∨ m = 11 then 30 else 31

/-- The number a decimal digit stands for. -/
def digitVal (c : Char) : Nat := c.toNat - '0'.toNat

/-- Reads a number of one or two digits off the front of the text; with
`fixed` it must have two digits (`getnum` of package `time`). -/
def getnum (s : List Char) (fixed : Bool) : Option (Nat × List Char) :=
  match s with
  | a :: b :: rest =>
    if a.isDigit then
      if b.isDigit then some (digitVal a * 10 + digitVal b, rest)
      else if fixed then none else some (digitVal a, b :: rest)
    else none
  | [a] => if a.isDigit ∧ ¬ fixed then some (digitVal a, []) else none
  | [] => none

/-- Drops the expected character off the front of the text. -/
def expectChar (c : Char) (s : List Char) : Option (List Char) :=
  match s with
  | a :: rest => if a = c then some rest else none
  | [] => none

/-- A fractional second after the seconds field is accepted on input and, the
model keeping whole seconds, dropped. -/
def skipFraction (s : List Char) : List Char :=
  match s with
  | a :: b :: rest =>
    if (a = '.' ∨ a = ',') ∧ b.isDigit then (b :: rest).dropWhile Char.isDigit else s
  | _ => s

/-- The fields `time.Parse("2006-01-02T15:04:05", value)` reads: year, month,
day, hour, minute, second; `none` when the text does not parse. -/
def parseFields (value : List Char) : Option (Nat × Nat × Nat × Nat × Nat × Nat) :=
  match value with
  | y1 :: y2 :: y3 :: y4 :: s =>
    if y1.isDigit ∧ y2.isDigit ∧ y3.isDigit ∧ y4.isDigit then
      let year := digitVal y1 * 1000 + digitVal y2 * 100 + digitVal y3 * 10 + digitVal y4
      (expectChar '-' s).bind fun s =>
      (getnum s true).bind fun (month, s) =>
      (expectChar '-' s).bind fun s =>
      (getnum s true).bind fun (day, s) =>
      (expectChar 'T' s).bind fun s =>
      (getnum s false).bind fun (hour, s) =>
      (expectChar ':' s).bind fun s =>
      (getnum s true).bind fun (minute, s) =>
      (expectChar ':' s).bind fun s =>
      (getnum s true).bind fun (second, s) =>
      if skipFraction s = [] ∧ 1 ≤ month ∧ month ≤ 12 ∧ 1 ≤ day ∧ day ≤ daysIn month year
          ∧ hour < 24 ∧ minute < 60 ∧ second < 60 then
        some (year, month, day, hour, minute, second)
      else none
    else none
  | _ => none

/-- `time.Parse("2006-01-02T15:04:05", value)`: without zone information in
the layout the result is in UTC. -/
def timeParse (value : String) : Except Error Time :=
  match parseFields value.data with
  | some (year, month, day, hour, minute, second) =>
    Except.ok ⟨daysFromCivil year month day * 86400 + hour * 3600 + minute * 60 + second, UTC⟩
  | none => Except.error (Error.new ("parsing time " ++ value))

/-- `t.In(location)`: the same instant, shown in another location. -/
def Time.In (t : Time) (location : Location) : Time := ⟨t.unix, location⟩

/-- The decimal form of an integer, padded with leading zeros to a width
(`appendInt` of package `time`). -/
def appendInt (x : Int) (width : Nat) : List Char :=
  let ds := Nat.toDigits 10 x.natAbs
  (if x < 0 then ['-'] else []) ++ List.replicate (width - ds.length) '0' ++ ds

/-- The zone field `Z07:00` of a layout: `Z` for offset zero, otherwise sign,
hours, colon, minutes. -/
def formatZone (offset : Int) : List Char :=
  if offset = 0 then ['Z']
  else
    let zone := Int.tdiv offset 60
    (if zone < 0 then ['-'] else ['+'])
      ++ appendInt (zone.natAbs / 60 : Nat) 2 ++ [':'] ++ appendInt (zone.natAbs % 60 : Nat) 2

/-- `t.Format(time.RFC3339)`, layout `2006-01-02T15:04:05Z07:00`: the wall
clock of the instant in the location of `t`, then the zone field. -/
def Time.FormatRFC3339 (t : Time) : String :=
  let offset := t.loc.offset t.unix
  let abs := t.unix + offset
  let date := civilFromDays (abs / 86400)
  let secs := abs % 86400
  String.mk
    (appendInt date.1 4 ++ ['-'] ++ appendInt date.2.1 2 ++ ['-'] ++ appendInt date.2.2 2
      ++ ['T'] ++ appendInt (secs / 3600) 2 ++ [':'] ++ appendInt (secs % 3600 / 60) 2
      ++ [':'] ++ appendInt (secs % 60) 2 ++ formatZone offset)

/-- `strings.Trim(s, "\"")`: `s` without its leading and trailing double
quotes. -/
def trimQuotes (s : String) : String :=
  String.mk (((s.data.dropWhile (· = '"')).reverse.dropWhile (· = '"')).reverse)

/-- The `UsageTime` struct: an embedded `time.Time`. -/
structure UsageTime where
  Time : Time

/-- The zero `time.Time`: January 1, year 1, 00:00:00 UTC. -/
def zeroTime : Time := ⟨-62135596800, UTC⟩

/-- `(ut *UsageTime) UnmarshalJSON(b)`: the receiver after the call and the
returned error. -/
def UsageTime.UnmarshalJSON (ut : UsageTime) (b : String) : UsageTime × Option Error :=
  let value := trimQuotes b
  if value = "" ∨ value = "null" then
    (ut, none)
  else
    match timeParse value with
    | Except.error err => (ut, some err)
    | Except.ok t => (⟨t⟩, none)

/-- `(ut *UsageTime) atLocation(location)`. -/
def UsageTime.atLocation (ut : UsageTime) (location : Location) : String :=
  (ut.Time.In location).FormatRFC3339

/-! ## Reading traces -/

/-- The `chromedp.Run` calls of a trace, in order. -/
def runCalls : List Event → List RunCall
  | [] => []
  | Event.run call :: rest => call :: runCalls rest
  | _ :: rest => runCalls rest

/-- The actions handed to the browser in a trace: the tasks of its
`chromedp.Run` calls.  (The driver stops a task list at its first failing
action, so what the browser carried out is among these.) -/
def issued (trace : List Event) : List Action :=
  ((runCalls trace).map RunCall.tasks).flatten

/-- Is the action a `SendKeys`. -/
def Action.isSendKeys : Action → Bool
  | Action.SendKeys _ _ => true
  | _ => false

/-- Is the action a `Click`. -/
def Action.isClick : Action → Bool
  | Action.Click _ => true
  | _ => false

/-- Is the action a `WaitNotPresent`. -/
def Action.isWaitNotPresent : Action → Bool
  | Action.WaitNotPresent _ => true
  | _ => false

/-- Is the action an `Evaluate`, the session-storage read. -/
def Action.isEvaluate : Action → Bool
  | Action.Evaluate _ => true
  | _ => false

/-- Is the event a call of a cancel function. -/
def Event.isCancel : Event → Bool
  | Event.cancel _ => true
  | _ => false

/-! ## Sample inputs -/

/-- The events of `n` unsuccessful token reads: each is a read followed by a
sleep of 100 ms. -/
def pollTrace (n : Nat) : List Event :=
  (List.replicate n [Event.run readCall, Event.sleep 100]).flatten

/-- Credentials of the end-to-end scenario. -/
def sampleAuth : Auth := ⟨"alice", "secret", "https://example.test/login?lang=en", ""⟩

/-- A browser whose token read fails with an error and leaves null on its
first `n` reads and yields `t` afterwards. -/
def tokenAfter (n : Nat) (t : String) : Context := fun i _ =>
  if i < n then ⟨some (Error.new "context deadline exceeded"), none, true⟩
  else ⟨none, some t, true⟩

/-- A browser whose storage entry stays null: every call succeeds and stores
nothing. -/
def neverToken : Context := fun _ _ => ⟨none, none, true⟩

/-- A browser whose storage entry stays null and whose reads fail with an
error, all but the read number `k` (counted from 0). -/
def failingReads (k : Nat) : Context := fun i _ =>
  if i = k then ⟨none, none, true⟩
  else ⟨some (Error.new "context deadline exceeded"), none, true⟩

/-- A started browser on which the call number `k` (counted from 0) fails
with `e` and every other call succeeds, the storage entry staying null. -/
def failsAt (k : Nat) (e : Error) : Context := fun i _ =>
  if i = k then ⟨some e, none, true⟩ else ⟨none, none, true⟩

/-- A context whose browser cannot be started: the first call, and every
other, fails with `e` and no browser process runs. -/
def noBrowser (e : Error) : Context := fun _ _ => ⟨some e, none, false⟩

/-- The script of the session-storage read. -/
def readScript : Action := Action.Evaluate "sessionStorage.getItem('accessToken')"

/-- A command line with credentials and a stale access token. -/
def sampleCli : Cli := ⟨false, true, "alice", "secret", "https://example.test", "stale-token"⟩

/-- A network on which every URL parses and every request is answered with
the given status and a well-formed customer record. -/
def serverAnswers (status : Int) : Net :=
  ⟨fun _ => none, fun _ => none,
   fun _ _ _ => ⟨some ⟨status, Except.ok ⟨false, 42, "Alice", "Example"⟩⟩, none⟩⟩

/-! ## The polling loop -/

theorem readLoop_fuel (ctx : Context) (fuel : Nat) :
    ∀ (attempt : Nat) (err : Option Error) (trace : List Event), 100 - attempt ≤ fuel →
      readLoop ctx fuel attempt err trace = readLoop ctx (100 - attempt) attempt err trace := by
  induction fuel with
  | zero =>
    intro attempt err trace h
    have h0 : 100 - attempt = 0 := by omega
    rw [h0]
  | succ f ih =>
    intro attempt err trace h
    by_cases ha : attempt < 100
    · obtain ⟨g, hg⟩ : ∃ g, 100 - attempt = g + 1 := ⟨99 - attempt, by omega⟩
      rw [hg]
      simp only [readLoop, ha, if_true]
      cases (ctx (attempt - 1) readCall).value with
      | some t => rfl
      | none =>
        simp only
        have hg2 : g = 100 - (attempt + 1) := by omega
        rw [hg2]
        exact ih _ _ _ (by omega)
    · have h0 : 100 - attempt = 0 := by omega
      rw [h0]
      simp [readLoop, ha]

theorem pollTrace_succ (n : Nat) :
    pollTrace (n + 1) = [Event.run readCall, Event.sleep 100] ++ pollTrace n := by
  simp [pollTrace, List.replicate_succ]

theorem count_run_pollTrace (n : Nat) :
    (pollTrace n).count (Event.run readCall) = n := by
  induction n with
  | zero => rfl
  | succ n ih =>
    rw [pollTrace_succ, List.count_append, ih]
    have h : List.count (Event.run readCall) [Event.run readCall, Event.sleep 100] = 1 := by
      decide
    omega

/-- From a loop head with `fuel` iterations left, when every remaining read
leaves null, the loop runs all of them and ends in the statements after the
loop, with the error of the last read. -/
theorem readLoop_exhaust (ctx : Context) (fuel : Nat) :
    ∀ (attempt : Nat) (err : Option Error) (trace : List Event),
      1 ≤ attempt → attempt + fuel = 100 →
      (∀ i, attempt - 1 ≤ i → i < 99 → (ctx i readCall).value = none) →
      readLoop ctx fuel attempt err trace
        = readFinish (if fuel = 0 then err else (ctx 98 readCall).err)
            (trace ++ pollTrace fuel) := by
  induction fuel with
  | zero =>
    intro attempt err trace _ _ _
    simp [readLoop, pollTrace]
  | succ f ih =>
    intro attempt err trace h1 hsum hnull
    have ha : attempt < 100 := by omega
    have hv : (ctx (attempt - 1) readCall).value = none := hnull _ (le_refl _) (by omega)
    simp only [readLoop, ha, if_true, hv]
    rw [ih (attempt + 1) _ _ (by omega) (by omega)
      (fun i hi hlt => hnull i (by omega) hlt)]
    rw [pollTrace_succ]
    by_cases hf : f = 0
    · subst hf
      have h99 : attempt - 1 = 98 := by omega
      simp [h99]
    · simp [hf]

/-- From a loop head, when the next `n` reads leave null and the one after
them yields `t`, the loop returns `t` right after that read. -/
theorem readLoop_found (ctx : Context) (t : String) (n : Nat) :
    ∀ (fuel attempt : Nat) (err : Option Error) (trace : List Event),
      1 ≤ attempt → attempt + n < 100 → n < fuel →
      (∀ i, attempt - 1 ≤ i → i < attempt - 1 + n → (ctx i readCall).value = none) →
      (ctx (attempt - 1 + n) readCall).value = some t →
      readLoop ctx fuel attempt err trace
        = (⟨some t, none⟩, trace ++ pollTrace n ++ [Event.run readCall]) := by
  induction n with
  | zero =>
    intro fuel attempt err trace h1 hlt hfuel _ htok
    obtain ⟨f, rfl⟩ : ∃ f, fuel = f + 1 := ⟨fuel - 1, by omega⟩
    have ha : attempt < 100 := by omega
    simp only [Nat.add_zero] at htok
    simp [readLoop, ha, htok, pollTrace]
  | succ n ih =>
    intro fuel attempt err trace h1 hlt hfuel hnull htok
    obtain ⟨f, rfl⟩ : ∃ f, fuel = f + 1 := ⟨fuel - 1, by omega⟩
    have ha : attempt < 100 := by omega
    have hv : (ctx (attempt - 1) readCall).value = none := hnull _ (le_refl _) (by omega)
    simp only [readLoop, ha, if_true, hv]
    have hidx : attempt + 1 - 1 + n = attempt - 1 + (n + 1) := by omega
    rw [ih f (attempt + 1) _ _ (by omega) (by omega) (by omega)
      (fun i hi hlt2 => hnull i (by omega) (by omega)) (by rw [hidx]; exact htok)]
    rw [pollTrace_succ]
    simp

theorem wraps_self (e : Error) : e.wraps e = true := by
  cases e <;> simp [Error.wraps]

theorem join_wraps_second (a e : Error) : (Error.join a e).wraps e = true := by
  simp [Error.wraps, wraps_self]

theorem join_wraps_first (a e : Error) : (Error.join a e).wraps a = true := by
  simp [Error.wraps, wraps_self]

theorem join_ne_second (a e : Error) : Error.join a e ≠ e := by
  intro h
  have hs := congrArg sizeOf h
  simp at hs

theorem append_loginPath_ne_empty (b : String) : b ++ loginPath ≠ "" := by
  intro h
  have hl := congrArg String.length h
  rw [String.length_append] at hl
  have h14 : loginPath.length = 14 := by decide
  rw [h14] at hl
  simp at hl

theorem NewAuth_of_present (u p b : String) (hu : u ≠ "") (hp : p ≠ "") (hb : b ≠ "") :
    NewAuth (some u) (some p) (some b) = ⟨some ⟨u, p, b ++ loginPath, ""⟩, none⟩ := by
  simp [NewAuth, hu, hp, hb]

theorem NewAuth_of_missing (user password baseUrl : Option String)
    (h : user = none ∨ user = some "" ∨ password = none ∨ password = some ""
          ∨ baseUrl = none ∨ baseUrl = some "") :
    (NewAuth user password baseUrl).val = none ∧ (NewAuth user password baseUrl).err ≠ none := by
  unfold NewAuth
  simp only
  split_ifs with h1 h2 h3
  · simp
  · simp
  · simp
  · exact absurd h (by tauto)

theorem present_of_not_missing (user password baseUrl : Option String)
    (h : ¬ (user = none ∨ user = some "" ∨ password = none ∨ password = some ""
          ∨ baseUrl = none ∨ baseUrl = some "")) :
    ∃ u p b, user = some u ∧ password = some p ∧ baseUrl = some b
      ∧ u ≠ "" ∧ p ≠ "" ∧ b ≠ "" := by
  rcases user with _ | u
  · exact absurd (Or.inl rfl) h
  rcases password with _ | p
  · exact absurd (Or.inr (Or.inr (Or.inl rfl))) h
  rcases baseUrl with _ | b
  · exact absurd (Or.inr (Or.inr (Or.inr (Or.inr (Or.inl rfl))))) h
  refine ⟨u, p, b, rfl, rfl, rfl, ?_, ?_, ?_⟩
  · intro hu; exact h (Or.inr (Or.inl (by rw [hu])))
  · intro hp; exact h (Or.inr (Or.inr (Or.inr (Or.inl (by rw [hp])))))
  · intro hb; exact h (Or.inr (Or.inr (Or.inr (Or.inr (Or.inr (by rw [hb]))))))

theorem runCalls_pollTrace_append (n : Nat) (rest : List Event) :
    runCalls (pollTrace n ++ rest) = List.replicate n readCall ++ runCalls rest := by
  induction n with
  | zero => simp [pollTrace]
  | succ n ih =>
    rw [pollTrace_succ]
    show runCalls (Event.run readCall :: Event.sleep 100 :: (pollTrace n ++ rest)) = _
    simp only [runCalls, ih, List.replicate_succ, List.cons_append]

theorem evaluations_of_reads (n : Nat) (calls : List RunCall) :
    (((List.replicate n readCall ++ calls).map RunCall.tasks).flatten).filter Action.isEvaluate
      = List.replicate n readScript
        ++ ((calls.map RunCall.tasks).flatten).filter Action.isEvaluate := by
  induction n with
  | zero => simp
  | succ n ih =>
    simp only [List.replicate_succ, List.cons_append, List.map_cons, List.flatten_cons,
      List.filter_append, ih]
    rfl

theorem evaluations_pollTrace_append (n : Nat) (rest : List Event) :
    (issued (pollTrace n ++ rest)).filter Action.isEvaluate
      = List.replicate n readScript ++ (issued rest).filter Action.isEvaluate := by
  simp only [issued, runCalls_pollTrace_append, evaluations_of_reads]

/-! ## NewAuth -/

/-- C1: `NewAuth` returns an error and no `Auth` exactly when one of user,
password, base URL is nil or the empty string; otherwise it returns no error
and an `Auth` carrying the given user and password and the base URL followed
by the login path, all three non-empty.  `NewAuth` is a function of its
arguments alone (it is handed no browser), and in `doAuthenticate` a failing
`NewAuth` ends the run before any browser event. -/
theorem NewAuth_fails_iff_missing_or_empty (user password baseUrl : Option String)
    (cli : Cli) (browser : Context) :
    (((NewAuth user password baseUrl).err ≠ none ∧ (NewAuth user password baseUrl).val = none)
      ↔ (user = none ∨ user = some "" ∨ password = none ∨ password = some ""
          ∨ baseUrl = none ∨ baseUrl = some ""))
    ∧ (¬ (user = none ∨ user = some "" ∨ password = none ∨ password = some ""
          ∨ baseUrl = none ∨ baseUrl = some "") →
        ∃ a, NewAuth user password baseUrl = ⟨some a, none⟩)
    ∧ (∀ a, (NewAuth user password baseUrl).val = some a →
        (NewAuth user password baseUrl).err = none
        ∧ a.User ≠ "" ∧ a.Password ≠ "" ∧ a.LoginUrl ≠ ""
        ∧ user = some a.User ∧ password = some a.Password
        ∧ baseUrl.map (· ++ loginPath) = some a.LoginUrl)
    ∧ ((cli.User = "" ∨ cli.Password = "" ∨ cli.Url = "") →
        ∃ msg, doAuthenticate cli browser = (Run.fatal msg, [])) := by
  refine ⟨?_, ?_, ?_, ?_⟩
  · constructor
    · intro h
      by_contra hm
      obtain ⟨u, p, b, rfl, rfl, rfl, hu, hp, hb⟩ := present_of_not_missing _ _ _ hm
      rw [NewAuth_of_present u p b hu hp hb] at h
      exact h.1 rfl
    · intro hm
      exact ⟨(NewAuth_of_missing _ _ _ hm).2, (NewAuth_of_missing _ _ _ hm).1⟩
  · intro hm
    obtain ⟨u, p, b, rfl, rfl, rfl, hu, hp, hb⟩ := present_of_not_missing _ _ _ hm
    exact ⟨_, NewAuth_of_present u p b hu hp hb⟩
  · intro a ha
    by_cases hm : user = none ∨ user = some "" ∨ password = none ∨ password = some ""
          ∨ baseUrl = none ∨ baseUrl = some ""
    · rw [(NewAuth_of_missing _ _ _ hm).1] at ha
      exact absurd ha (by simp)
    · obtain ⟨u, p, b, rfl, rfl, rfl, hu, hp, hb⟩ := present_of_not_missing _ _ _ hm
      rw [NewAuth_of_present u p b hu hp hb] at ha ⊢
      simp only [Option.some.injEq] at ha
      subst ha
      exact ⟨rfl, hu, hp, append_loginPath_ne_empty b, rfl, rfl, rfl⟩
  · intro h
    by_cases hu : cli.User = ""
    · simp [doAuthenticate, NewAuth, hu]
    by_cases hp : cli.Password = ""
    · simp [doAuthenticate, NewAuth, hu, hp]
    have hb : cli.Url = "" := by tauto
    simp [doAuthenticate, NewAuth, hu, hp, hb]

/-! ## readAccessToken -/

/-- C2: when the first `N < 99` reads leave the value null and read `N + 1`
yields the token `t`, `readAccessToken` returns `t` and no error, and its
events are `N` times a read followed by a sleep and then one last read: it
makes exactly `N + 1` reads, none after the one that yields the token, and the
`Evaluate` actions it hands to the browser are exactly `N + 1` evaluations of
the session-storage script. -/
theorem readAccessToken_returns_first_token (ctx : Context) (N : Nat) (t : String)
    (hN : N < 99)
    (hnull : ∀ i, i < N → (ctx i readCall).value = none)
    (htoken : (ctx N readCall).value = some t) :
    (readAccessToken ctx).1 = ⟨some t, none⟩
    ∧ (readAccessToken ctx).2 = pollTrace N ++ [Event.run readCall]
    ∧ (readAccessToken ctx).2.count (Event.run readCall) = N + 1
    ∧ (runCalls (readAccessToken ctx).2).length = N + 1
    ∧ (issued (readAccessToken ctx).2).filter Action.isEvaluate
        = List.replicate (N + 1) readScript
    ∧ ((issued (readAccessToken ctx).2).filter Action.isEvaluate).length = N + 1 := by
  have h := readLoop_found ctx t N 99 1 none [] (le_refl _) (by omega) hN
    (fun i _ hi => hnull i (by omega)) (by simpa using htoken)
  have hrun : ∀ n, runCalls (pollTrace n ++ [Event.run readCall])
      = List.replicate n readCall ++ [readCall] := fun n => runCalls_pollTrace_append n _
  unfold readAccessToken
  rw [h]
  have hev : (issued (pollTrace N ++ [Event.run readCall])).filter Action.isEvaluate
      = List.replicate (N + 1) readScript := by
    rw [evaluations_pollTrace_append, List.replicate_succ']
    rfl
  refine ⟨rfl, by simp, ?_, ?_, ?_, ?_⟩
  · simp only [List.nil_append, List.count_append, count_run_pollTrace]
    rfl
  · simp [hrun]
  · simpa only [List.nil_append] using hev
  · simp only [List.nil_append, hev, List.length_replicate]

/-- Witness for C2: null (with an error) on two reads, the token on the
third. -/
theorem readAccessToken_returns_first_token_witness :
    (readAccessToken (tokenAfter 2 "tok-123")).1 = ⟨some "tok-123", none⟩
    ∧ (readAccessToken (tokenAfter 2 "tok-123")).2 = pollTrace 2 ++ [Event.run readCall]
    ∧ (readAccessToken (tokenAfter 2 "tok-123")).2.count (Event.run readCall) = 2 + 1
    ∧ (runCalls (readAccessToken (tokenAfter 2 "tok-123")).2).length = 2 + 1
    ∧ (issued (readAccessToken (tokenAfter 2 "tok-123")).2).filter Action.isEvaluate
        = List.replicate (2 + 1) readScript
    ∧ ((issued (readAccessToken (tokenAfter 2 "tok-123")).2).filter Action.isEvaluate).length
        = 2 + 1 :=
  readAccessToken_returns_first_token (tokenAfter 2 "tok-123") 2 "tok-123" (by decide)
    (by intro i hi; simp [tokenAfter, hi]) (by simp [tokenAfter])

/-- C3: when no read ever yields a non-null value, `readAccessToken` makes
exactly 99 reads (each followed by a sleep), handing the browser exactly 99
evaluations of the session-storage script, and then returns an error and no
token. -/
theorem readAccessToken_gives_up_after_99 (ctx : Context)
    (hnull : ∀ i, (ctx i readCall).value = none) :
    (readAccessToken ctx).1.val = none
    ∧ (readAccessToken ctx).1.err ≠ none
    ∧ (readAccessToken ctx).2 = pollTrace 99
    ∧ (readAccessToken ctx).2.count (Event.run readCall) = 99
    ∧ (runCalls (readAccessToken ctx).2).length = 99
    ∧ (issued (readAccessToken ctx).2).filter Action.isEvaluate
        = List.replicate 99 readScript
    ∧ ((issued (readAccessToken ctx).2).filter Action.isEvaluate).length = 99 := by
  have h := readLoop_exhaust ctx 99 1 none [] (le_refl _) rfl (fun i _ _ => hnull i)
  have hrun : ∀ n, runCalls (pollTrace n) = List.replicate n readCall := by
    intro n
    simpa [runCalls] using runCalls_pollTrace_append n []
  unfold readAccessToken
  rw [h]
  simp only [List.nil_append]
  have hev : ∀ n, (issued (pollTrace n)).filter Action.isEvaluate
      = List.replicate n readScript := by
    intro n
    have h0 := evaluations_pollTrace_append n []
    rw [List.append_nil] at h0
    rw [h0]
    simp [issued, runCalls]
  have htr : (readFinish (if 99 = 0 then none else (ctx 98 readCall).err) (pollTrace 99)).2
      = pollTrace 99 := by
    cases (ctx 98 readCall).err <;> simp [readFinish]
  refine ⟨?_, ?_, ?_, ?_, ?_, ?_, ?_⟩
  · cases (ctx 98 readCall).err <;> simp [readFinish]
  · cases (ctx 98 readCall).err <;> simp [readFinish]
  · exact htr
  · rw [htr]; exact count_run_pollTrace 99
  · rw [htr, hrun]; simp
  · rw [htr]; exact hev 99
  · rw [htr, hev 99]; simp

/-- Witness for C3: a storage entry that stays null. -/
theorem readAccessToken_gives_up_after_99_witness :
    (readAccessToken neverToken).1.val = none
    ∧ (readAccessToken neverToken).1.err ≠ none
    ∧ (readAccessToken neverToken).2 = pollTrace 99
    ∧ (readAccessToken neverToken).2.count (Event.run readCall) = 99
    ∧ (runCalls (readAccessToken neverToken).2).length = 99
    ∧ (issued (readAccessToken neverToken).2).filter Action.isEvaluate
        = List.replicate 99 readScript
    ∧ ((issued (readAccessToken neverToken).2).filter Action.isEvaluate).length = 99 :=
  readAccessToken_gives_up_after_99 neverToken (fun _ => rfl)

/-- C8: when all 99 reads leave the value null, the returned error is decided
by the last read alone: if it returned an error `e`, the result is
"failed to get accessToken" joined with `e` (which wraps `e`); if it returned
no error, the result is the plain error "accessToken not found", which wraps
nothing but itself.  The errors of the earlier reads do not matter. -/
theorem readAccessToken_error_from_last_read (ctx : Context)
    (hnull : ∀ i, i < 99 → (ctx i readCall).value = none) :
    (readAccessToken ctx).1.val = none
    ∧ (∀ e, (ctx 98 readCall).err = some e →
        (readAccessToken ctx).1.err
            = some (Error.join (Error.new "failed to get accessToken") e)
        ∧ (Error.join (Error.new "failed to get accessToken") e).wraps e = true)
    ∧ ((ctx 98 readCall).err = none →
        (readAccessToken ctx).1.err = some (Error.new "accessToken not found")
        ∧ ∀ x, (Error.new "accessToken not found").wraps x = true
            → x = Error.new "accessToken not found") := by
  have h := readLoop_exhaust ctx 99 1 none [] (le_refl _) rfl (fun i _ hi => hnull i hi)
  unfold readAccessToken
  rw [h]
  refine ⟨?_, ?_, ?_⟩
  · cases (ctx 98 readCall).err <;> simp [readFinish]
  · intro e he
    simp [he, readFinish, join_wraps_second]
  · intro he
    refine ⟨by simp [he, readFinish], ?_⟩
    intro x hx
    simpa [Error.wraps, eq_comm] using hx

/-- Witness for C8: 98 reads that fail with an error, then a last read that
succeeds with null: the result is the plain "accessToken not found". -/
theorem readAccessToken_error_from_last_read_witness :
    (∀ i, i < 99 → (failingReads 98 i readCall).value = none)
    ∧ (failingReads 98 0 readCall).err = some (Error.new "context deadline exceeded")
    ∧ (readAccessToken (failingReads 98)).1.err = some (Error.new "accessToken not found") :=
  ⟨fun i _ => by simp only [failingReads]; split <;> rfl, by decide,
   ((readAccessToken_error_from_last_read (failingReads 98)
      (fun i _ => by simp only [failingReads]; split <;> rfl)).2.2 (by decide)).1⟩

/-! ## getAccessToken -/

/-- The result and the events of a run in which phase 1 fails with a browser
process started. -/
theorem getAccessToken_phase1_fails (headless : Bool) (auth : Auth) (ctx : Context) (e : Error)
    (h1 : (ctx 0 (phase1 auth)).err = some e) (hb : (ctx 0 (phase1 auth)).browser = true) :
    getAccessToken headless auth ctx
      = (Run.returned ⟨none, some e⟩,
         [Event.newExecAllocator headless, Event.newContext, Event.run (phase1 auth),
          Event.cancel CancelFunc.context, Event.cancel CancelFunc.context,
          Event.cancel CancelFunc.allocator]) := by
  simp [getAccessToken, leave, callCancel, h1, hb]

/-- The events of a run in which phase 1 fails with no browser process
started: the deferred second call of the context's cancel function does not
return. -/
theorem getAccessToken_phase1_fails_without_browser (headless : Bool) (auth : Auth)
    (ctx : Context) (e : Error)
    (h1 : (ctx 0 (phase1 auth)).err = some e) (hb : (ctx 0 (phase1 auth)).browser = false) :
    getAccessToken headless auth ctx
      = (Run.blocked,
         [Event.newExecAllocator headless, Event.newContext, Event.run (phase1 auth),
          Event.cancel CancelFunc.context, Event.cancel CancelFunc.context]) := by
  simp [getAccessToken, leave, callCancel, h1, hb]

theorem getAccessToken_phase2_fails (headless : Bool) (auth : Auth) (ctx : Context) (e : Error)
    (h1 : (ctx 0 (phase1 auth)).err = none) (h2 : (ctx 1 (phase2 auth)).err = some e) :
    getAccessToken headless auth ctx
      = (Run.returned ⟨none, some e⟩,
         [Event.newExecAllocator headless, Event.newContext, Event.run (phase1 auth),
          Event.run (phase2 auth),
          Event.cancel CancelFunc.context, Event.cancel CancelFunc.context,
          Event.cancel CancelFunc.allocator]) := by
  simp [getAccessToken, leave, callCancel, h1, h2]

theorem getAccessToken_phase3_fails (headless : Bool) (auth : Auth) (ctx : Context) (e : Error)
    (h1 : (ctx 0 (phase1 auth)).err = none) (h2 : (ctx 1 (phase2 auth)).err = none)
    (h3 : (ctx 2 phase3).err = some e) :
    getAccessToken headless auth ctx
      = (Run.returned ⟨none, some (Error.join (Error.new "login failed") e)⟩,
         [Event.newExecAllocator headless, Event.newContext, Event.run (phase1 auth),
          Event.run (phase2 auth), Event.run phase3,
          Event.cancel CancelFunc.context, Event.cancel CancelFunc.context,
          Event.cancel CancelFunc.allocator]) := by
  simp [getAccessToken, leave, callCancel, h1, h2, h3]

theorem getAccessToken_polls (headless : Bool) (auth : Auth) (ctx : Context)
    (h1 : (ctx 0 (phase1 auth)).err = none) (h2 : (ctx 1 (phase2 auth)).err = none)
    (h3 : (ctx 2 phase3).err = none) :
    getAccessToken headless auth ctx
      = (match (readAccessToken (ctx.after 3)).1.err with
         | some err =>
           (Run.returned ⟨none, some err⟩,
            [Event.newExecAllocator headless, Event.newContext, Event.run (phase1 auth),
             Event.run (phase2 auth), Event.run phase3] ++ (readAccessToken (ctx.after 3)).2
              ++ [Event.cancel CancelFunc.context, Event.cancel CancelFunc.context,
                  Event.cancel CancelFunc.allocator])
         | none =>
           (Run.returned ⟨(readAccessToken (ctx.after 3)).1.val, none⟩,
            [Event.newExecAllocator headless, Event.newContext, Event.run (phase1 auth),
             Event.run (phase2 auth), Event.run phase3] ++ (readAccessToken (ctx.after 3)).2
              ++ [Event.cancel CancelFunc.context, Event.cancel CancelFunc.allocator])) := by
  simp only [getAccessToken, h1, h2, h3]
  cases (readAccessToken (ctx.after 3)).1.err <;> simp [leave, callCancel]

/-- The loop adds events that are reads and sleeps only, and ends either with
a token and no error or with an error and no token. -/
theorem readLoop_shape (ctx : Context) (fuel : Nat) :
    ∀ (attempt : Nat) (err : Option Error) (trace : List Event),
      ∃ body, (readLoop ctx fuel attempt err trace).2 = trace ++ body
        ∧ (∀ ev, ev ∈ body → ev.isCancel = false ∧ ev ≠ Event.newContext)
        ∧ ((∃ t, (readLoop ctx fuel attempt err trace).1 = ⟨some t, none⟩)
            ∨ (∃ e, (readLoop ctx fuel attempt err trace).1 = ⟨none, some e⟩)) := by
  induction fuel with
  | zero =>
    intro attempt err trace
    refine ⟨[], ?_, by simp, ?_⟩
    · cases err <;> simp [readLoop, readFinish]
    · cases err <;> simp [readLoop, readFinish]
  | succ f ih =>
    intro attempt err trace
    by_cases ha : attempt < 100
    · cases hv : (ctx (attempt - 1) readCall).value with
      | some t =>
        refine ⟨[Event.run readCall], ?_, ?_, ?_⟩
        · simp [readLoop, ha, hv]
        · intro ev hev
          simp only [List.mem_singleton] at hev
          subst hev
          exact ⟨rfl, by simp⟩
        · simp [readLoop, ha, hv]
      | none =>
        obtain ⟨body, hb, hc, hr⟩ := ih (attempt + 1) (ctx (attempt - 1) readCall).err
          (trace ++ [Event.run readCall] ++ [Event.sleep 100])
        refine ⟨[Event.run readCall, Event.sleep 100] ++ body, ?_, ?_, ?_⟩
        · simp only [readLoop, ha, if_true, hv]
          rw [hb]
          simp
        · intro ev hev
          simp only [List.cons_append, List.nil_append, List.mem_cons] at hev
          rcases hev with rfl | rfl | hev
          · exact ⟨rfl, by simp⟩
          · exact ⟨rfl, by simp⟩
          · exact hc ev hev
        · simpa only [readLoop, ha, if_true, hv] using hr
    · refine ⟨[], ?_, by simp, ?_⟩
      · cases err <;> simp [readLoop, ha, readFinish]
      · cases err <;> simp [readLoop, ha, readFinish]

/-- C4: a failing phase aborts every later phase.  When phase 1 fails, the
only `chromedp.Run` call is phase 1, so no `SendKeys`, no `Click` and no
session-storage read is handed to the browser.  When phase 2 fails, the calls
are phases 1 and 2, so no wait for the submit control, no `Click`, no
`WaitNotPresent` and no read.  When phase 3 fails, the calls are phases 1 to 3,
so no read. -/
theorem getAccessToken_failed_phase_aborts_later_phases
    (headless : Bool) (auth : Auth) (ctx : Context) :
    (∀ e, (ctx 0 (phase1 auth)).err = some e →
      runCalls (getAccessToken headless auth ctx).2 = [phase1 auth]
      ∧ ∀ a, a ∈ issued (getAccessToken headless auth ctx).2 →
          a.isSendKeys = false ∧ a.isClick = false ∧ a.isEvaluate = false)
    ∧ ((ctx 0 (phase1 auth)).err = none → ∀ e, (ctx 1 (phase2 auth)).err = some e →
      runCalls (getAccessToken headless auth ctx).2 = [phase1 auth, phase2 auth]
      ∧ ∀ a, a ∈ issued (getAccessToken headless auth ctx).2 →
          a ≠ Action.WaitReady submitButton ∧ a.isClick = false
          ∧ a.isWaitNotPresent = false ∧ a.isEvaluate = false)
    ∧ ((ctx 0 (phase1 auth)).err = none → (ctx 1 (phase2 auth)).err = none →
      ∀ e, (ctx 2 phase3).err = some e →
      runCalls (getAccessToken headless auth ctx).2 = [phase1 auth, phase2 auth, phase3]
      ∧ Event.run readCall ∉ (getAccessToken headless auth ctx).2
      ∧ ∀ a, a ∈ issued (getAccessToken headless auth ctx).2 → a.isEvaluate = false) := by
  refine ⟨?_, ?_, ?_⟩
  · intro e h1
    have hcalls : runCalls (getAccessToken headless auth ctx).2 = [phase1 auth] := by
      cases hb : (ctx 0 (phase1 auth)).browser with
      | true => rw [getAccessToken_phase1_fails headless auth ctx e h1 hb]; rfl
      | false =>
        rw [getAccessToken_phase1_fails_without_browser headless auth ctx e h1 hb]; rfl
    refine ⟨hcalls, ?_⟩
    intro a ha
    simp only [issued, hcalls, phase1, runWithTimeOut, List.map, List.flatten,
      List.append_nil, List.mem_cons, List.mem_singleton, List.not_mem_nil, or_false,
      List.cons_append, List.nil_append] at ha
    rcases ha with rfl | rfl <;> exact ⟨rfl, rfl, rfl⟩
  · intro h1 e h2
    rw [getAccessToken_phase2_fails headless auth ctx e h1 h2]
    refine ⟨rfl, ?_⟩
    intro a ha
    simp only [issued, runCalls, phase1, phase2, runWithTimeOut, List.map, List.flatten,
      List.append_nil, List.mem_cons, List.mem_singleton, List.not_mem_nil, or_false,
      List.cons_append, List.nil_append] at ha
    rcases ha with rfl | rfl | rfl | rfl | rfl
    · exact ⟨by simp, rfl, rfl, rfl⟩
    · exact ⟨by simp [submitButton], rfl, rfl, rfl⟩
    · exact ⟨by simp, rfl, rfl, rfl⟩
    · exact ⟨by simp, rfl, rfl, rfl⟩
    · exact ⟨by simp, rfl, rfl, rfl⟩
  · intro h1 h2 e h3
    rw [getAccessToken_phase3_fails headless auth ctx e h1 h2 h3]
    refine ⟨rfl, ?_, ?_⟩
    · simp [readCall, phase1, phase2, phase3, runWithTimeOut]
    · intro a ha
      simp only [issued, runCalls, phase1, phase2, phase3, runWithTimeOut, List.map,
        List.flatten, List.append_nil, List.mem_cons, List.mem_singleton, List.not_mem_nil,
        or_false, List.cons_append, List.nil_append] at ha
      rcases ha with rfl | rfl | rfl | rfl | rfl | rfl | rfl | rfl <;> rfl

/-- Witness for C4: the same browser failing in phase 1, in phase 2 and in
phase 3. -/
theorem getAccessToken_failed_phase_aborts_later_phases_witness :
    runCalls (getAccessToken true sampleAuth (failsAt 0 (Error.new "timeout"))).2
      = [phase1 sampleAuth]
    ∧ runCalls (getAccessToken true sampleAuth (failsAt 1 (Error.new "timeout"))).2
      = [phase1 sampleAuth, phase2 sampleAuth]
    ∧ runCalls (getAccessToken true sampleAuth (failsAt 2 (Error.new "timeout"))).2
      = [phase1 sampleAuth, phase2 sampleAuth, phase3] :=
  ⟨((getAccessToken_failed_phase_aborts_later_phases true sampleAuth
      (failsAt 0 (Error.new "timeout"))).1 (Error.new "timeout") (by decide)).1,
   ((getAccessToken_failed_phase_aborts_later_phases true sampleAuth
      (failsAt 1 (Error.new "timeout"))).2.1 (by decide) (Error.new "timeout") (by decide)).1,
   ((getAccessToken_failed_phase_aborts_later_phases true sampleAuth
      (failsAt 2 (Error.new "timeout"))).2.2 (by decide) (by decide)
      (Error.new "timeout") (by decide)).1⟩

/-- C7: when phases 1 and 2 succeed and phase 3 fails with `e`,
`getAccessToken` returns no token and the join of a "login failed" error with
`e`: an error that wraps both and whose text is "login failed" followed by
the text of `e`. -/
theorem getAccessToken_login_failed_wraps_cause
    (headless : Bool) (auth : Auth) (ctx : Context) (e : Error)
    (h1 : (ctx 0 (phase1 auth)).err = none) (h2 : (ctx 1 (phase2 auth)).err = none)
    (h3 : (ctx 2 phase3).err = some e) :
    (getAccessToken headless auth ctx).1
        = Run.returned ⟨none, some (Error.join (Error.new "login failed") e)⟩
    ∧ (Error.join (Error.new "login failed") e).wraps (Error.new "login failed") = true
    ∧ (Error.join (Error.new "login failed") e).wraps e = true
    ∧ (Error.join (Error.new "login failed") e).text = "login failed" ++ "\n" ++ e.text := by
  rw [getAccessToken_phase3_fails headless auth ctx e h1 h2 h3]
  exact ⟨rfl, join_wraps_first _ _, join_wraps_second _ _, rfl⟩

/-- Witness for C7: the wait for the user name field to disappear times
out. -/
theorem getAccessToken_login_failed_wraps_cause_witness :
    (getAccessToken true sampleAuth (failsAt 2 (Error.new "context deadline exceeded"))).1
        = Run.returned ⟨none, some (Error.join (Error.new "login failed")
            (Error.new "context deadline exceeded"))⟩ :=
  (getAccessToken_login_failed_wraps_cause true sampleAuth
    (failsAt 2 (Error.new "context deadline exceeded")) (Error.new "context deadline exceeded")
    (by decide) (by decide) (by decide)).1

/-- C5 (the code at the failing inputs): on a run whose phase 1 fails, the
cancel function of the chromedp context is called twice, once explicitly
before `return` and once more as the deferred call, not exactly once.  With a
browser process started (the navigation times out) both calls return and the
error goes to the caller.  With none started (the browser executable is not
found) the second call waits for ever: `getAccessToken` never returns and the
allocator's cancel function is never called. -/
theorem getAccessToken_cancels_context_twice_on_failure :
    getAccessToken true sampleAuth (failsAt 0 (Error.new "timeout"))
        = (Run.returned ⟨none, some (Error.new "timeout")⟩,
           [Event.newExecAllocator true, Event.newContext, Event.run (phase1 sampleAuth),
            Event.cancel CancelFunc.context, Event.cancel CancelFunc.context,
            Event.cancel CancelFunc.allocator])
    ∧ (getAccessToken true sampleAuth (failsAt 0 (Error.new "timeout"))).2.count
        (Event.cancel CancelFunc.context) = 2
    ∧ (getAccessToken true sampleAuth (failsAt 0 (Error.new "timeout"))).2.count
        (Event.cancel CancelFunc.context) ≠ 1
    ∧ getAccessToken true sampleAuth (noBrowser (Error.new "executable file not found"))
        = (Run.blocked,
           [Event.newExecAllocator true, Event.newContext, Event.run (phase1 sampleAuth),
            Event.cancel CancelFunc.context, Event.cancel CancelFunc.context])
    ∧ (getAccessToken true sampleAuth
          (noBrowser (Error.new "executable file not found"))).2.count
        (Event.cancel CancelFunc.context) = 2
    ∧ (getAccessToken true sampleAuth
          (noBrowser (Error.new "executable file not found"))).2.count
        (Event.cancel CancelFunc.allocator) = 0 := by
  decide

/-- On every path of `getAccessToken` the number of calls of the context's
cancel function is known: a run that returns a token made one, a run that
returns an error made two, and a run that does not return made two and none
of the allocator's. -/
theorem getAccessToken_cancel_calls (headless : Bool) (auth : Auth) (ctx : Context) :
    ((∃ t, (getAccessToken headless auth ctx).1 = Run.returned ⟨some t, none⟩)
        ∧ (getAccessToken headless auth ctx).2.count (Event.cancel CancelFunc.context) = 1
        ∧ (getAccessToken headless auth ctx).2.count (Event.cancel CancelFunc.allocator) = 1)
    ∨ ((∃ e, (getAccessToken headless auth ctx).1 = Run.returned ⟨none, some e⟩)
        ∧ (getAccessToken headless auth ctx).2.count (Event.cancel CancelFunc.context) = 2
        ∧ (getAccessToken headless auth ctx).2.count (Event.cancel CancelFunc.allocator) = 1)
    ∨ ((getAccessToken headless auth ctx).1 = Run.blocked
        ∧ (ctx 0 (phase1 auth)).err ≠ none ∧ (ctx 0 (phase1 auth)).browser = false
        ∧ (getAccessToken headless auth ctx).2.count (Event.cancel CancelFunc.context) = 2
        ∧ (getAccessToken headless auth ctx).2.count (Event.cancel CancelFunc.allocator) = 0) := by
  cases h1 : (ctx 0 (phase1 auth)).err with
  | some e =>
    cases hb : (ctx 0 (phase1 auth)).browser with
    | true =>
      rw [getAccessToken_phase1_fails headless auth ctx e h1 hb]
      refine Or.inr (Or.inl ⟨⟨e, rfl⟩, ?_, ?_⟩) <;>
        simp [List.count_cons, phase1, runWithTimeOut]
    | false =>
      rw [getAccessToken_phase1_fails_without_browser headless auth ctx e h1 hb]
      refine Or.inr (Or.inr ⟨rfl, by simp, rfl, ?_, ?_⟩) <;>
        simp [List.count_cons, phase1, runWithTimeOut]
  | none =>
    cases h2 : (ctx 1 (phase2 auth)).err with
    | some e =>
      rw [getAccessToken_phase2_fails headless auth ctx e h1 h2]
      refine Or.inr (Or.inl ⟨⟨e, rfl⟩, ?_, ?_⟩) <;>
        simp [List.count_cons, phase1, phase2, runWithTimeOut]
    | none =>
      cases h3 : (ctx 2 phase3).err with
      | some e =>
        rw [getAccessToken_phase3_fails headless auth ctx e h1 h2 h3]
        refine Or.inr (Or.inl ⟨⟨_, rfl⟩, ?_, ?_⟩) <;>
          simp [List.count_cons, phase1, phase2, phase3, runWithTimeOut]
      | none =>
        rw [getAccessToken_polls headless auth ctx h1 h2 h3]
        obtain ⟨body, hb, hc, hr⟩ := readLoop_shape (ctx.after 3) 99 1 none []
        have hb2 : (readAccessToken (ctx.after 3)).2 = body := by
          simpa [readAccessToken] using hb
        have hc0 : ∀ f, body.count (Event.cancel f) = 0 := by
          intro f
          rw [List.count_eq_zero]
          intro hmem
          have := (hc _ hmem).1
          simp [Event.isCancel] at this
        rcases hr with ⟨t, ht⟩ | ⟨e, he⟩
        · have ht2 : (readAccessToken (ctx.after 3)).1 = ⟨some t, none⟩ := ht
          rw [ht2, hb2]
          refine Or.inl ⟨⟨t, rfl⟩, ?_, ?_⟩ <;>
            simp [List.count_cons, List.count_append, hc0]
        · have he2 : (readAccessToken (ctx.after 3)).1 = ⟨none, some e⟩ := he
          rw [he2, hb2]
          refine Or.inr (Or.inl ⟨⟨e, rfl⟩, ?_, ?_⟩) <;>
            simp [List.count_cons, List.count_append, hc0]

/-- C6 (as stated, refuted): a run whose phase 1 fails with a cause and a run
whose phase 2 fails with the same cause return the same result, the cause
itself with no mark of the phase: the two failures cannot be told apart. -/
theorem getAccessToken_phase1_phase2_errors_coincide :
    (failsAt 0 (Error.new "context deadline exceeded") 0 (phase1 sampleAuth)).err
        = some (Error.new "context deadline exceeded")
    ∧ (failsAt 1 (Error.new "context deadline exceeded") 0 (phase1 sampleAuth)).err = none
    ∧ (failsAt 1 (Error.new "context deadline exceeded") 1 (phase2 sampleAuth)).err
        = some (Error.new "context deadline exceeded")
    ∧ (getAccessToken true sampleAuth (failsAt 0 (Error.new "context deadline exceeded"))).1
        = (getAccessToken true sampleAuth (failsAt 1 (Error.new "context deadline exceeded"))).1
    ∧ (getAccessToken true sampleAuth (failsAt 0 (Error.new "context deadline exceeded"))).1
        = Run.returned ⟨none, some (Error.new "context deadline exceeded")⟩ := by
  decide

/-- C6 (amended): a failure of phase 1 with cause `e` that occurs with the
browser process started, and a failure of phase 2 with cause `e`, are both
returned to the caller as `e` itself, unchanged; a failure of phase 3 with
cause `e` is returned as the join of a "login failed" error with `e`, which
differs from `e` (so from what phases 1 and 2 return for that cause).  In all
three cases the call returns and the returned error carries `e`. -/
theorem getAccessToken_phase_errors (headless : Bool) (auth : Auth)
    (ctx₁ ctx₂ ctx₃ : Context) (e : Error)
    (hp1 : (ctx₁ 0 (phase1 auth)).err = some e ∧ (ctx₁ 0 (phase1 auth)).browser = true)
    (hp2 : (ctx₂ 0 (phase1 auth)).err = none ∧ (ctx₂ 1 (phase2 auth)).err = some e)
    (hp3 : (ctx₃ 0 (phase1 auth)).err = none ∧ (ctx₃ 1 (phase2 auth)).err = none
      ∧ (ctx₃ 2 phase3).err = some e) :
    (getAccessToken headless auth ctx₁).1 = Run.returned ⟨none, some e⟩
    ∧ (getAccessToken headless auth ctx₂).1 = Run.returned ⟨none, some e⟩
    ∧ (getAccessToken headless auth ctx₃).1
        = Run.returned ⟨none, some (Error.join (Error.new "login failed") e)⟩
    ∧ (getAccessToken headless auth ctx₃).1 ≠ (getAccessToken headless auth ctx₁).1
    ∧ (getAccessToken headless auth ctx₃).1 ≠ (getAccessToken headless auth ctx₂).1
    ∧ e.wraps e = true
    ∧ (Error.join (Error.new "login failed") e).wraps e = true := by
  rw [getAccessToken_phase1_fails headless auth ctx₁ e hp1.1 hp1.2,
    getAccessToken_phase2_fails headless auth ctx₂ e hp2.1 hp2.2,
    getAccessToken_phase3_fails headless auth ctx₃ e hp3.1 hp3.2.1 hp3.2.2]
  have hne : (Run.returned ⟨none, some (Error.join (Error.new "login failed") e)⟩ :
      Run (Ret String)) ≠ Run.returned ⟨none, some e⟩ := by
    intro h
    simp only [Run.returned.injEq, Ret.mk.injEq, Option.some.injEq, true_and] at h
    exact join_ne_second _ _ h
  exact ⟨rfl, rfl, rfl, hne, hne, wraps_self e, join_wraps_second _ _⟩

/-- Witness for C6 (amended): one cause, failing phase 1, phase 2 and phase 3
of a started browser. -/
theorem getAccessToken_phase_errors_witness :
    (getAccessToken true sampleAuth (failsAt 0 (Error.new "timeout"))).1
        = Run.returned ⟨none, some (Error.new "timeout")⟩
    ∧ (getAccessToken true sampleAuth (failsAt 1 (Error.new "timeout"))).1
        = Run.returned ⟨none, some (Error.new "timeout")⟩
    ∧ (getAccessToken true sampleAuth (failsAt 2 (Error.new "timeout"))).1
        = Run.returned ⟨none, some (Error.join (Error.new "login failed")
            (Error.new "timeout"))⟩ :=
  have h := getAccessToken_phase_errors true sampleAuth
    (failsAt 0 (Error.new "timeout")) (failsAt 1 (Error.new "timeout"))
    (failsAt 2 (Error.new "timeout")) (Error.new "timeout")
    (by decide) (by decide) (by decide)
  ⟨h.1, h.2.1, h.2.2.1⟩

/-! ## Usage timestamps -/

theorem minutes_last_char : ∀ m, m < 60 →
    (appendInt ((m : Nat) : Int) 2).getLast?.isSome = true
    ∧ (appendInt ((m : Nat) : Int) 2).getLast? ≠ some 'Z' := by
  decide

theorem getLast_append_of_isSome {α : Type} (xs ys : List α)
    (h : ys.getLast?.isSome = true) :
    (xs ++ ys).getLast? = ys.getLast? := by
  rw [List.getLast?_append]
  cases hy : ys.getLast? with
  | none => rw [hy] at h; simp at h
  | some c => rfl

theorem formatZone_last (offset : Int) :
    (formatZone offset).getLast?.isSome = true
    ∧ ((formatZone offset).getLast? = some 'Z' ↔ offset = 0) := by
  by_cases h0 : offset = 0
  · subst h0
    simp [formatZone]
  · have hm := minutes_last_char ((Int.tdiv offset 60).natAbs % 60) (Nat.mod_lt _ (by decide))
    have hl : (formatZone offset).getLast?
        = (appendInt (((Int.tdiv offset 60).natAbs % 60 : Nat) : Int) 2).getLast? := by
      simp only [formatZone, h0, if_false]
      exact getLast_append_of_isSome _ _ hm.1
    rw [hl]
    exact ⟨hm.1, fun h => absurd h hm.2, fun h => absurd h h0⟩

/-- For every usage time and every location, the result of `atLocation` ends
in `Z`, the UTC form, exactly when the offset of the location at that instant
is zero. -/
theorem atLocation_utc_form_iff (ut : UsageTime) (location : Location) :
    (ut.atLocation location).data.getLast? = some 'Z' ↔ location.offset ut.Time.unix = 0 := by
  have h := formatZone_last (location.offset ut.Time.unix)
  have hl : (ut.atLocation location).data.getLast?
      = (formatZone (location.offset ut.Time.unix)).getLast? := by
    simp only [UsageTime.atLocation, Time.In, Time.FormatRFC3339]
    exact getLast_append_of_isSome _ _ h.1
  rw [hl]
  exact h.2

/-- C9 (the code at the failing input): the timestamp `2024-01-15T12:00:00`
is decoded without error, and `atLocation` for a location two hours east of
UTC returns it with that location's wall clock and offset,
`2024-01-15T14:00:00+02:00`, which does not end in `Z`; only for a location of
offset zero is the result the UTC form `2024-01-15T12:00:00Z`. -/
theorem atLocation_not_utc :
    (UsageTime.UnmarshalJSON ⟨zeroTime⟩ "\"2024-01-15T12:00:00\"").2 = none
    ∧ (UsageTime.UnmarshalJSON ⟨zeroTime⟩ "\"2024-01-15T12:00:00\"").1.atLocation
        (FixedZone "EET" 7200) = "2024-01-15T14:00:00+02:00"
    ∧ ((UsageTime.UnmarshalJSON ⟨zeroTime⟩ "\"2024-01-15T12:00:00\"").1.atLocation
        (FixedZone "EET" 7200)).data.getLast? ≠ some 'Z'
    ∧ (UsageTime.UnmarshalJSON ⟨zeroTime⟩ "\"2024-01-15T12:00:00\"").1.atLocation UTC
        = "2024-01-15T12:00:00Z" := by
  refine ⟨by decide, by decide, by decide, by decide⟩

/-! ## doUsage -/

/-- A first `getCustomerInfo` that returns a `RequestStatusError` of any status
other than 401 is followed by the nil dereference. -/
theorem doUsage_status_other_than_401 (cli : Cli) (net : Net) (browser : Context)
    (msg : String) (code : Int)
    (h : getCustomerInfo net 0 cli.Url cli.AccessToken
      = Run.returned ⟨none, some (Error.status msg code)⟩)
    (hcode : code ≠ 401) :
    doUsage cli net browser = Run.nilDereference := by
  simp [doUsage, h, Error.asStatus, hcode, callGetMeteringPoints]

/-- A first `getCustomerInfo` that returns a plain error ends the run through
`log.Fatal`. -/
theorem doUsage_other_error_is_fatal (cli : Cli) (net : Net) (browser : Context)
    (msg : String)
    (h : getCustomerInfo net 0 cli.Url cli.AccessToken
      = Run.returned ⟨none, some (Error.new msg)⟩) :
    doUsage cli net browser = Run.fatal msg := by
  simp [doUsage, h, Error.asStatus, Error.text]

/-- C10 (the code at the failing input): when the customer information
request is answered with status 500, `getCustomerInfo` returns a
`RequestStatusError` of status 500 and no customer information; `doUsage`
takes the status-error case, does nothing there because the status is not
401, and goes on to read `customerInfo.Owner.CustomerId` through a nil
pointer. -/
theorem doUsage_status_500_dereferences_nil :
    getCustomerInfo (serverAnswers 500) 0 sampleCli.Url sampleCli.AccessToken
        = Run.returned ⟨none, some (Error.status "invalid response status" 500)⟩
    ∧ doUsage sampleCli (serverAnswers 500) neverToken = Run.nilDereference := by
  refine ⟨by decide, by decide⟩

end FortumFetch
